import Mathlib

/-!
Verification of the wult wake-up latency measurement driver (drivers/idle/wult).

The C sources are shallowly embedded: machine integers are natural numbers
with explicit reduction modulo 2^64 (or 2^32) wherever the C code can wrap,
stateful functions become pure functions from an explicit state (plus an
environment record holding the values produced by hardware reads and by the
delayed-event device callbacks) to a new state and a result.
-/

namespace Wult

/-! ## Definitions: the shallow embedding of the driver -/

/-- 2^64, the modulus of the u64 type. -/
def W64 : Nat := 2 ^ 64

/-- 2^32, the modulus of the u32 / unsigned int type. -/
def W32 : Nat := 2 ^ 32

/-- Wrapping u64 subtraction: for `a b < W64` this is C `a - b` on u64. -/
def sub64 (a b : Nat) : Nat := (a + (W64 - b % W64)) % W64

/-- Wrapping u32 subtraction: for `a b < W32` this is C `a - b` on u32. -/
def sub32 (a b : Nat) : Nat := (a + (W32 - b % W32)) % W32

/-- The EBUSY errno value. -/
def EBUSY : Int := 16

/-- The EINVAL errno value. -/
def EINVAL : Int := 22

/-- The configuration part of `struct wult_info` together with the
device-supplied bounds from `struct wult_device_info` that
`dfs_write_rw_u64_file` consults. -/
structure ConfigState where
  enabled : Bool
  ldist_min : Nat
  ldist_max : Nat
  ldist_gran : Nat
  ldist_from : Nat
  ldist_to : Nat
deriving Repr, DecidableEq

/-- Which of the two writable launch-distance debugfs files is written. -/
inductive LdistFile
  | fromFile
  | toFile
deriving Repr, DecidableEq

/-- Embedding of `dfs_write_rw_u64_file` (uapi.c), after the user buffer has
been parsed into the u64 `val`: under the enable lock, the write is refused
with `-EBUSY` while enabled, with `-EINVAL` when the value is outside
`[ldist_min, ldist_max]` or would violate `ldist_from <= ldist_to`, and
otherwise stores the value. -/
def dfs_write_rw_u64 (s : ConfigState) (which : LdistFile) (val : Nat) :
    ConfigState × Except Int Unit :=
  if s.enabled then
    (s, .error (-EBUSY))
  else if val > s.ldist_max || val < s.ldist_min then
    (s, .error (-EINVAL))
  else
    match which with
    | .fromFile =>
        if val > s.ldist_to then (s, .error (-EINVAL))
        else ({ s with ldist_from := val }, .ok ())
    | .toFile =>
        if val < s.ldist_from then (s, .error (-EINVAL))
        else ({ s with ldist_to := val }, .ok ())

/-- The configuration read by `pick_ldist`: the user range (u64 fields of
`struct wult_info`) and the device granularity (u32 field of
`struct wult_device_info`). -/
structure PickState where
  ldist_from : Nat
  ldist_to : Nat
  ldist_gran : Nat
deriving Repr, DecidableEq

/-- The body of `pick_ldist` (main.c) after the inverted-range write: draw,
reduce into the range, and quantize.  `r` is the value returned by
`get_random_u64()`.  `do_div(n, base)` divides the u64 `n` in place by the
u32 `base` and returns the remainder, so the first `do_div` keeps the
remainder and the second keeps the quotient.  The divisor expression
`ldist_to - ldist_from + 1` is computed in u64 and then truncated to u32 by
`do_div`. -/
def pick_ldist_quant (s1 : PickState) (r : Nat) : Nat :=
  let base := (((s1.ldist_to + (W64 - s1.ldist_from % W64)) % W64 + 1) % W64) % W32
  let l1 := (r % W64) % base
  let l2 := (l1 + s1.ldist_from) % W64
  if s1.ldist_gran > 1 then
    let g := s1.ldist_gran
    let l3 := (l2 + (g - 1)) % W64
    l3 / g * g % W64
  else
    l2

/-- Embedding of `pick_ldist` (main.c): the function first writes
`ldist_from := ldist_to` when the range is inverted, then runs the body
`pick_ldist_quant`; the updated state is returned alongside the picked
value. -/
def pick_ldist (s : PickState) (r : Nat) : Nat × PickState :=
  let s1 := if s.ldist_from > s.ldist_to then { s with ldist_from := s.ldist_to } else s
  (pick_ldist_quant s1 r, s1)

/-- The lower end of the effective range: `pick_ldist` collapses an inverted
range onto `ldist_to`. -/
def ldist_lo (s : PickState) : Nat := min s.ldist_from s.ldist_to

/-- The value `pick_ldist` computes before quantization:
`lo + r mod (ldist_to - lo + 1)`. -/
def preQuant (s : PickState) (r : Nat) : Nat :=
  ldist_lo s + r % (s.ldist_to - ldist_lo s + 1)

/-- Ceiling quantization to a multiple of `g`. -/
def ceilQuant (g x : Nat) : Nat := (x + g - 1) / g * g

/-- A concrete disabled configuration with granularity 100 used to refute the
granularity requirement of C1. -/
def c1ConfigState : ConfigState :=
  { enabled := false, ldist_min := 1, ldist_max := 10000000, ldist_gran := 100,
    ldist_from := 1000, ldist_to := 4000000 }

/-- `struct cstate_info` (cstates.h): one residency counter.  `msr = 0`
encodes a missing counter address (the C code clears the `msr` field to mark
a counter it will not read). -/
structure CState where
  name : String
  msr : Nat
  core : Bool
  absent : Bool
  cyc1 : Nat
  cyc2 : Nat
  cyc : Nat
deriving Repr, DecidableEq

/-- `struct wult_cstates_info` (as used by cstates.c): the registry plus the
TSC and MPERF snapshots and their deltas. -/
structure CstatesInfo where
  cstates : List CState
  tsc1 : Nat
  tsc2 : Nat
  tsc : Nat
  mperf1 : Nat
  mperf2 : Nat
  mperf : Nat
deriving Repr, DecidableEq

/-- Modelled from the spec: the `for_each_cstate_msr` iteration macro is not
among the provided sources (only its call sites in cstates.c are).  Per the
spec, per-counter reads cover every counter that actually has a hardware
address, so the macro visits exactly the entries whose `msr` field is
non-zero (after initialization `absent` entries always have `msr = 0`, so
this also skips absent entries). -/
def msrEntries (l : List CState) : List CState :=
  l.filter (fun e => e.msr ≠ 0)

/-- The `for_each_cstate` macro (cstates.h): iterate over every valid
C-state, skipping entries that are `absent` or have no `msr` address.  This
is the iteration used when declaring record fields and emitting values. -/
def validCstates (l : List CState) : List CState :=
  l.filter (fun e => ¬e.absent ∧ e.msr ≠ 0)

/-- Environment for `wult_cstates_read_before` / `wult_cstates_read_after`:
the values produced by `rdtsc_ordered()`, `__rdmsr(MSR_IA32_MPERF)` and the
per-counter `__rdmsr` reads at that instant. -/
structure ReadEnv where
  tsc_read : Nat
  mperf_read : Nat
  msr_read : Nat → Nat

/-- `wult_cstates_read_before` (cstates.c): snapshot TSC, MPERF and every
counter with an MSR into the first slots. -/
def wult_cstates_read_before (c : CstatesInfo) (e : ReadEnv) : CstatesInfo :=
  { c with
    tsc1 := e.tsc_read
    mperf1 := e.mperf_read
    cstates := c.cstates.map fun cs =>
      if cs.msr ≠ 0 then { cs with cyc1 := e.msr_read cs.msr } else cs }

/-- `wult_cstates_read_after` (cstates.c): snapshot MPERF, TSC and every
counter with an MSR into the second slots. -/
def wult_cstates_read_after (c : CstatesInfo) (e : ReadEnv) : CstatesInfo :=
  { c with
    tsc2 := e.tsc_read
    mperf2 := e.mperf_read
    cstates := c.cstates.map fun cs =>
      if cs.msr ≠ 0 then { cs with cyc2 := e.msr_read cs.msr } else cs }

/-- The wrapping u64 accumulation `cyc += csi->cyc` over the core C-states
with an MSR, as in the derived-CC1 branch of `wult_cstates_calc`. -/
def coreCycFold (l : List CState) : Nat :=
  l.foldl (fun a e => if e.msr ≠ 0 ∧ e.core then (a + e.cyc) % W64 else a) 0

/-- `wult_cstates_calc` (cstates.c:47-69): compute `tsc2 - tsc1`,
`mperf2 - mperf1` and `cyc2 - cyc1` for every counter with an MSR (all in
wrapping u64 arithmetic), then, if the first registry entry (CC1) has no
MSR, derive its residency as `tsc - (sum of core residencies + mperf)`. -/
def wult_cstates_calc (c : CstatesInfo) : CstatesInfo :=
  let c1 : CstatesInfo :=
    { c with
      tsc := sub64 c.tsc2 c.tsc1
      mperf := sub64 c.mperf2 c.mperf1
      cstates := c.cstates.map fun cs =>
        if cs.msr ≠ 0 then { cs with cyc := sub64 cs.cyc2 cs.cyc1 } else cs }
  match c1.cstates with
  | [] => c1
  | cc1 :: rest =>
    if cc1.msr = 0 then
      let cyc := (coreCycFold c1.cstates + c1.mperf) % W64
      { c1 with cstates := { cc1 with cyc := sub64 c1.tsc cyc } :: rest }
    else c1

/-- The Intel C-state table `intel_cstates` (cstates.c): CC1 first, then the
other core and package residency counters, with their MSR addresses. -/
def intel_cstates : List CState :=
  [{ name := "CC1", msr := 0x660, core := true, absent := false, cyc1 := 0, cyc2 := 0, cyc := 0 },
   { name := "CC3", msr := 0x3FC, core := true, absent := false, cyc1 := 0, cyc2 := 0, cyc := 0 },
   { name := "CC6", msr := 0x3FD, core := true, absent := false, cyc1 := 0, cyc2 := 0, cyc := 0 },
   { name := "CC7", msr := 0x3FE, core := true, absent := false, cyc1 := 0, cyc2 := 0, cyc := 0 },
   { name := "PC2", msr := 0x60D, core := false, absent := false, cyc1 := 0, cyc2 := 0, cyc := 0 },
   { name := "PC3", msr := 0x3F8, core := false, absent := false, cyc1 := 0, cyc2 := 0, cyc := 0 },
   { name := "PC6", msr := 0x3F9, core := false, absent := false, cyc1 := 0, cyc2 := 0, cyc := 0 },
   { name := "PC7", msr := 0x3FA, core := false, absent := false, cyc1 := 0, cyc2 := 0, cyc := 0 },
   { name := "PC8", msr := 0x630, core := false, absent := false, cyc1 := 0, cyc2 := 0, cyc := 0 },
   { name := "PC9", msr := 0x631, core := false, absent := false, cyc1 := 0, cyc2 := 0, cyc := 0 },
   { name := "PC10", msr := 0x632, core := false, absent := false, cyc1 := 0, cyc2 := 0, cyc := 0 }]

/-- `intel_cstate_init` (cstates.c:89-154).  `probe msr = none` models
`rdmsrl_safe` taking an exception, `probe msr = some v` a successful read
returning `v`; `model_listed` is whether `boot_cpu_data.x86_model` is in the
list of models with a CC1 residency MSR.  A counter is marked `absent` (and
its `msr` cleared) exactly when the probe read faults; a successful read of
any value - zero included - keeps the counter.  CC1 is special-cased: a
faulting CC1 probe is un-marked absent (its residency will be derived), and
on unlisted models the CC1 `msr` is cleared (derive as well). -/
def intel_cstate_init (cstates : List CState) (probe : Nat → Option Nat)
    (model_listed : Bool) : List CState :=
  let l := cstates.map fun cs =>
    if cs.msr ≠ 0 then
      match probe cs.msr with
      | none => { cs with msr := 0, absent := true }
      | some _ => cs
    else cs
  match l with
  | [] => []
  | cc1 :: rest =>
    if cc1.absent then
      { cc1 with absent := false } :: rest
    else if model_listed then
      cc1 :: rest
    else
      { cc1 with msr := 0 } :: rest

/-- The tracer state: `struct wult_tracer_info` as used by tracer.c, plus the
measured CPU number `cpunum` from `struct wult_info` which the idle hook
consults. -/
structure TracerState where
  cpunum : Nat
  tbi : Nat
  tai : Nat
  tintr : Nat
  ldist : Nat
  req_cstate : Nat
  smi_bi : Nat
  nmi_bi : Nat
  smi_ai : Nat
  nmi_ai : Nat
  overhead : Nat
  got_dp : Bool
  discard_dp : Bool
  bi_finished : Bool
  ai_finished : Bool
  intr_finished : Bool
  csinfo : CstatesInfo
deriving Repr, DecidableEq

/-- Environment of one instrumentation-hook invocation: the values produced
by `get_smi_count`, the per-CPU NMI count, the counter reads, the
delayed-event device time reads, `event_has_happened`, `irqs_disabled`, the
two `rdtsc_ordered()` reads bracketing `after_idle`, and the
cycles-to-nanoseconds conversion parameters. -/
structure HookEnv where
  smi : Nat
  nmi : Nat
  reads : ReadEnv
  tbi_read : Nat
  tai_read : Nat
  event_happened : Bool
  irqs_disabled : Bool
  cyc1 : Nat
  cyc2 : Nat
  mult : Nat
  shift : Nat

/-- `wult_cyc2ns` (wult.h): `mul_u64_u32_shr(cyc, mult, shift)`. -/
def wult_cyc2ns (mult shift cyc : Nat) : Nat := cyc * mult / 2 ^ shift % W64

/-- `before_idle` (tracer.c): record the SMI/NMI counts, take the before
snapshot of the counters, and read the device time before idle. -/
def before_idle (s : TracerState) (e : HookEnv) : TracerState :=
  let s1 := { s with smi_bi := e.smi, nmi_bi := e.nmi }
  let s2 := { s1 with csinfo := wult_cstates_read_before s1.csinfo e.reads }
  { s2 with tbi := e.tbi_read }

/-- `read_data_after_idle` (tracer.c:55-71): read the device time, and if the
wake is not attributable to the armed event return 0 without touching any
other state; otherwise take the after snapshot and the SMI/NMI counts and
return the time read. -/
def read_data_after_idle (s : TracerState) (e : HookEnv) : TracerState × Nat :=
  let tai := e.tai_read
  if ¬e.event_happened then (s, 0)
  else
    let s1 := { s with csinfo := wult_cstates_read_after s.csinfo e.reads }
    ({ s1 with smi_ai := e.smi, nmi_ai := e.nmi }, tai)

/-- `after_idle` (tracer.c:74-109): a no-op unless `before_idle` finished and
the interrupt handler has not already collected the data; otherwise store the
after-idle data, discard the datapoint when interrupts are enabled (the
wake-up raced with the handler), mark the datapoint present, and compute the
measurement overhead from the bracketing TSC reads. -/
def after_idle (s : TracerState) (e : HookEnv) : TracerState :=
  if ¬s.bi_finished then s
  else if s.intr_finished then s
  else
    let p := read_data_after_idle s e
    let s1 := { p.1 with tai := p.2 }
    let s2 := if ¬e.irqs_disabled then { s1 with discard_dp := true } else s1
    let s3 := { s2 with got_dp := true }
    { s3 with overhead := wult_cyc2ns e.mult e.shift (sub64 e.cyc2 e.cyc1) }

/-- `wult_tracer_interrupt` (tracer.c:112-146): a no-op unless `before_idle`
finished; if `after_idle` already ran, record the interrupt time and SMI/NMI
counts (when a datapoint exists); otherwise (IRQ-on idle state such as POLL)
collect everything here and let `tai := tintr`, with zero overhead. -/
def wult_tracer_interrupt (s : TracerState) (e : HookEnv) : TracerState :=
  if ¬s.bi_finished then s
  else if s.ai_finished then
    let s1 := if s.got_dp then
        { s with tintr := e.tai_read, smi_ai := e.smi, nmi_ai := e.nmi }
      else s
    { s1 with intr_finished := true }
  else
    let p := read_data_after_idle s e
    { p.1 with tintr := p.2, tai := p.2, overhead := 0, got_dp := true,
               intr_finished := true }

/-- `PWR_EVENT_EXIT` ((unsigned int)-1): the sentinel requested C-state value
marking idle-exit in the `cpu_idle` tracepoint. -/
def PWR_EVENT_EXIT : Nat := 4294967295

/-- `cpu_idle_hook` (tracer.c:330-358): ignore other CPUs; on idle-exit run
`after_idle` and set `ai_finished`; on idle-entry clear the per-iteration
flags, record the requested C-state, run `before_idle`, and only then set the
`bi_finished` latch. -/
def cpu_idle_hook (s : TracerState) (req_cstate cpu_id : Nat) (e : HookEnv) :
    TracerState :=
  if cpu_id ≠ s.cpunum then s
  else if req_cstate = PWR_EVENT_EXIT then
    let s1 := after_idle s e
    { s1 with ai_finished := true }
  else
    let s1 := { s with got_dp := false, discard_dp := false,
                       ai_finished := false, bi_finished := false,
                       intr_finished := false, req_cstate := req_cstate }
    let s2 := before_idle s1 e
    { s2 with bi_finished := true }

/-- Result of `wult_tracer_send_data`: success without a record (return 0 on
a drop), a record handed to the synthetic-event sink (the ordered list of
field values), or a propagated error from `get_trace_data` /
`synth_event_trace_start`. -/
inductive SendResult
  | dropped
  | emitted (values : List Nat)
  | failed (e : Int)
deriving Repr, DecidableEq

/-- Environment of one `wult_tracer_send_data` call: the launch time returned
by `get_launch_time`, the optional `get_trace_data` operation and its result,
the result of `synth_event_trace_start`, and the optional `time_to_ns`
conversion hook. -/
structure SendEnv where
  ltime : Nat
  trace_data : Option (Except Int (List (String × Nat)))
  start_err : Option Int
  time_to_ns : Option (Nat → Nat)

/-- The tail of `wult_tracer_send_data` once the launch-time window check has
passed and `get_trace_data` returned `tdata`: start the synthetic-event
trace, compute the latencies (wrapping u64 arithmetic, with the optional
`time_to_ns` conversion, the overhead subtracted from the interrupt
latency), add the common field values, run `wult_cstates_calc`, add the
per-C-state deltas for every valid registry entry, then the driver-specific
values.  Note the code adds `csinfo.tsc` and `csinfo.mperf` *before* calling
`wult_cstates_calc`. -/
def send_emit (s1 : TracerState) (ltime : Nat) (tdata : List (String × Nat))
    (env : SendEnv) : TracerState × SendResult :=
  match env.start_err with
  | some e => (s1, .failed e)
  | none =>
    let silent_time := sub64 ltime s1.tbi
    let wake_latency := sub64 s1.tai ltime
    let intr_latency := sub64 s1.tintr ltime
    let st := match env.time_to_ns with | some f => f silent_time % W64 | none => silent_time
    let wl := match env.time_to_ns with | some f => f wake_latency % W64 | none => wake_latency
    let il0 := match env.time_to_ns with | some f => f intr_latency % W64 | none => intr_latency
    let il := sub64 il0 s1.overhead
    let s2 := { s1 with csinfo := wult_cstates_calc s1.csinfo }
    let values :=
      [st, wl, il, s1.ldist, s1.req_cstate, s1.csinfo.tsc, s1.csinfo.mperf,
       sub32 s1.smi_ai s1.smi_bi, sub32 s1.nmi_ai s1.nmi_bi]
      ++ (validCstates s2.csinfo.cstates).map (fun cs => cs.cyc)
      ++ tdata.map (fun p => p.2)
    (s2, .emitted values)

/-- `wult_tracer_send_data` (tracer.c:236-327): return 0 without a record if
no datapoint was collected or it was marked discarded; clear both flags; read
the launch time; return 0 without a record if the launch time is not inside
`(tbi, tai)`; fetch the driver trace data (propagating its error); then emit
via `send_emit`. -/
def wult_tracer_send_data (s : TracerState) (env : SendEnv) :
    TracerState × SendResult :=
  if ¬s.got_dp ∨ s.discard_dp then (s, .dropped)
  else
    let s1 := { s with got_dp := false, discard_dp := false }
    if env.ltime ≤ s1.tbi ∨ env.ltime ≥ s1.tai then (s1, .dropped)
    else
      match env.trace_data with
      | some (.error e) => (s1, .failed e)
      | some (.ok tdata) => send_emit s1 env.ltime tdata env
      | none => send_emit s1 env.ltime [] env

/-- `common_fields` (tracer.c:21-31): the declared (type, name) pairs of the
common part of the `wult_cpu_idle` synthetic event, in declaration order. -/
def common_fields : List (String × String) :=
  [("u64", "SilentTime"), ("u64", "WakeLatency"), ("u64", "IntrLatency"),
   ("u64", "LDist"), ("unsigned int", "ReqCState"), ("u64", "TotCyc"),
   ("u64", "CC0Cyc"), ("u64", "SMICnt"), ("u64", "NMICnt")]

/-- `wult_synth_event_init` (tracer.c): the full declared field list of the
`wult_cpu_idle` synthetic event: the common fields, one u64 `{name}Cyc`
field per valid registry entry in registry order, then one u64 field per
driver-specific trace-data item. -/
def wult_synth_fields (cstates : List CState) (tdata : List (String × Nat)) :
    List (String × String) :=
  common_fields ++ (validCstates cstates).map (fun cs => ("u64", cs.name ++ "Cyc"))
    ++ tdata.map (fun p => ("u64", p.1))

/-- The measurement fields of the per-iteration datapoint: everything the
three instrumentation hooks write except the `bi_finished` / `ai_finished` /
`intr_finished` protocol flags. -/
structure Datapoint where
  tbi : Nat
  tai : Nat
  tintr : Nat
  ldist : Nat
  req_cstate : Nat
  smi_bi : Nat
  nmi_bi : Nat
  smi_ai : Nat
  nmi_ai : Nat
  overhead : Nat
  got_dp : Bool
  discard_dp : Bool
  csinfo : CstatesInfo
deriving Repr, DecidableEq

/-- Project the per-iteration datapoint out of the tracer state. -/
def datapoint (s : TracerState) : Datapoint :=
  { tbi := s.tbi, tai := s.tai, tintr := s.tintr, ldist := s.ldist,
    req_cstate := s.req_cstate, smi_bi := s.smi_bi, nmi_bi := s.nmi_bi,
    smi_ai := s.smi_ai, nmi_ai := s.nmi_ai, overhead := s.overhead,
    got_dp := s.got_dp, discard_dp := s.discard_dp, csinfo := s.csinfo }

/-- An idle-exit notification (the `cpu_idle_hook` with `PWR_EVENT_EXIT` on
the measured CPU) or a delayed-event interrupt, each with the hardware reads
it observes. -/
inductive IdleEvent
  | exitHook (e : HookEnv)
  | irq (e : HookEnv)

/-- Deliver a sequence of idle-exit notifications and interrupts to the
tracer. -/
def runEvents (s : TracerState) : List IdleEvent → TracerState
  | [] => s
  | .exitHook e :: rest => runEvents (cpu_idle_hook s PWR_EVENT_EXIT s.cpunum e) rest
  | .irq e :: rest => runEvents (wult_tracer_interrupt s e) rest

/-- The engine-level state of `struct wult_info` used by `wult_enable`,
`wult_disable` and the armer thread: the measured CPU, the enable flag and
the two event counters (the `event_cpu` / `irq_err` values written by the
interrupt handler reach the armer through its environment). -/
structure EngineState where
  cpunum : Nat
  enabled : Bool
  events_armed : Nat
  events_happened : Nat
deriving Repr, DecidableEq

/-- `wult_disable` (main.c:69-77): under the enable mutex, clear `enabled`
(and detach the tracer) when it was set; idempotent. -/
def wult_disable (s : EngineState) : EngineState := { s with enabled := false }

/-- Environment of one `wult_enable` call: the result of
`wult_tracer_enable`. -/
structure EnableEnv where
  tracer_enable_err : Option Int
deriving Repr, DecidableEq

/-- Result of `wult_enable`: the new state, the returned error code, and
whether the armer wait-queue was woken. -/
structure EnableResult where
  state : EngineState
  ret : Int
  woke_armer : Bool
deriving Repr, DecidableEq

/-- `wult_enable` (main.c:44-66): under the enable mutex, do nothing when
already enabled; otherwise enable the tracer (propagating its error with no
state change), and only on success set `enabled`, zero both event counters
and wake the armer. -/
def wult_enable (s : EngineState) (env : EnableEnv) : EnableResult :=
  if s.enabled then
    { state := s, ret := 0, woke_armer := false }
  else
    match env.tracer_enable_err with
    | some e => { state := s, ret := e, woke_armer := false }
    | none =>
        { state := { s with enabled := true, events_armed := 0, events_happened := 0 },
          ret := 0, woke_armer := true }

/-- What one armer-loop iteration does next: proceed to the next iteration,
or jump to the error path that disables the engine and parks the thread
(`schedule()` in a loop) until `kthread_should_stop()`. -/
inductive ArmerOutcome
  | nextIteration
  | park
deriving Repr, DecidableEq

/-- Environment of one armer iteration: the CPU the thread actually runs on,
the result of `wult_tracer_arm_event`, whether `events_happened` advanced
before the `wait_event_timeout` deadline (`ldist` in milliseconds plus
1000 ms), and the `event_cpu` / `events_happened` / `irq_err` values the
sanity checks read (written by the interrupt handler), plus the result of
`wult_tracer_send_data`. -/
structure ArmerEnv where
  cur_cpu : Nat
  arm_err : Option Int
  fired : Bool
  event_cpu : Nat
  happened_now : Nat
  irq_err : Int
  send_err : Option Int
deriving Repr, DecidableEq

/-- The `wait_event_timeout` ceiling of one iteration (main.c:242):
`ktime_to_ms(ns_to_ktime(ldist)) + 1000` milliseconds. -/
def armer_timeout_ms (ldist : Nat) : Nat := ldist / 1000000 + 1000

/-- One iteration of `armer_kthread`'s main loop (main.c:222-266), entered
with the engine observed enabled: check the running CPU, pick and arm (the
pick itself is `pick_ldist`), count the armed event, wait for the event with
a timeout, run `check_event` (main.c:168-195: right CPU, matching counters,
no IRQ error), and send the datapoint under the enable mutex.  Every failure
takes the `error:` path: `wult_disable()` followed by the parked
`schedule()` loop. -/
def armer_iteration (s : EngineState) (e : ArmerEnv) : EngineState × ArmerOutcome :=
  if e.cur_cpu ≠ s.cpunum then (wult_disable s, .park)
  else
    match e.arm_err with
    | some _ => (wult_disable s, .park)
    | none =>
      let s1 := { s with events_armed := s.events_armed + 1 }
      if ¬e.fired ∧ s1.enabled then (wult_disable s1, .park)
      else if e.event_cpu ≠ s1.cpunum then (wult_disable s1, .park)
      else if s1.events_armed ≠ e.happened_now then (wult_disable s1, .park)
      else if e.irq_err ≠ 0 then (wult_disable s1, .park)
      else if s1.enabled then
        match e.send_err with
        | some _ => (wult_disable s1, .park)
        | none => (s1, .nextIteration)
      else (s1, .nextIteration)

/-- A probe environment in which every MSR read succeeds and returns zero. -/
def zeroProbe : Nat → Option Nat := fun _ => some 0

/-- The per-snapshot deltas `cyc2 - cyc1` (wrapping u64) of the core C-states
that have an MSR, summed as integers. -/
def coreDeltaSum (l : List CState) : Int :=
  ((l.filter (fun e => e.msr ≠ 0 ∧ e.core)).map
    (fun e => (sub64 e.cyc2 e.cyc1 : Int))).sum

/-- The integer sum of the stored `cyc` values of the core C-states with an
MSR. -/
def coreCycSum (l : List CState) : Int :=
  ((l.filter (fun e => e.msr ≠ 0 ∧ e.core)).map (fun e => (e.cyc : Int))).sum

/-- A tracer state whose reference counter runs backwards between the two
snapshots (`tsc1 > tsc2`), with a valid in-window datapoint. -/
def c9state : TracerState :=
  { cpunum := 0, tbi := 10, tai := 100, tintr := 60, ldist := 5, req_cstate := 1,
    smi_bi := 0, nmi_bi := 0, smi_ai := 0, nmi_ai := 0, overhead := 0,
    got_dp := true, discard_dp := false,
    bi_finished := false, ai_finished := false, intr_finished := false,
    csinfo := { cstates := [], tsc1 := 100, tsc2 := 50, tsc := 0,
                mperf1 := 0, mperf2 := 0, mperf := 0 } }

/-- The emission environment used with `c9state`. -/
def c9env : SendEnv :=
  { ltime := 50, trace_data := none, start_err := none, time_to_ns := none }

/-- A datapoint state with `tintr < ltime < tai`: the launch time is past the
interrupt time but inside `(tbi, tai)`. -/
def c5state : TracerState :=
  { cpunum := 0, tbi := 10, tai := 100, tintr := 5, ldist := 7, req_cstate := 2,
    smi_bi := 0, nmi_bi := 0, smi_ai := 0, nmi_ai := 0, overhead := 0,
    got_dp := true, discard_dp := false,
    bi_finished := false, ai_finished := false, intr_finished := false,
    csinfo := { cstates := [], tsc1 := 0, tsc2 := 0, tsc := 0,
                mperf1 := 0, mperf2 := 0, mperf := 0 } }

/-- The emission environment used with `c5state`. -/
def c5env : SendEnv :=
  { ltime := 50, trace_data := none, start_err := none, time_to_ns := none }

/-- A concrete un-latched tracer state. -/
def c7state : TracerState :=
  { cpunum := 3, tbi := 1, tai := 2, tintr := 3, ldist := 4, req_cstate := 5,
    smi_bi := 6, nmi_bi := 7, smi_ai := 8, nmi_ai := 9, overhead := 10,
    got_dp := true, discard_dp := false,
    bi_finished := false, ai_finished := false, intr_finished := false,
    csinfo := { cstates := [], tsc1 := 0, tsc2 := 0, tsc := 0,
                mperf1 := 0, mperf2 := 0, mperf := 0 } }

/-- A concrete hook environment. -/
def c7env : HookEnv :=
  { smi := 100, nmi := 101, reads := { tsc_read := 1, mperf_read := 2, msr_read := fun _ => 3 },
    tbi_read := 4, tai_read := 5, event_happened := true, irqs_disabled := true,
    cyc1 := 6, cyc2 := 7, mult := 1, shift := 0 }

/-! ## Theorems -/

theorem sub64_lt (a b : Nat) : sub64 a b < W64 := by
  have : 0 < W64 := by decide
  exact Nat.mod_lt _ this

theorem sub64_eq_of_le (a b : Nat) (hb : b ≤ a) (ha : a < W64) (hb64 : b < W64) :
    sub64 a b = a - b := by
  unfold sub64
  rw [Nat.mod_eq_of_lt hb64]
  have h1 : a + (W64 - b) = W64 + (a - b) := by omega
  rw [h1, Nat.add_mod_left, Nat.mod_eq_of_lt (by omega)]

/-- `sub64` agrees with integer subtraction modulo 2^64 when `a < W64`. -/
theorem sub64_int (a b : Nat) :
    (sub64 a b : Int) = ((a : Int) - (b : Int)) % (W64 : Nat) := by
  simp only [sub64, W64] at *
  omega

theorem pick_ldist_core (lo t g r : Nat) (hlot : lo ≤ t) (ht : t < W64) (hr : r < W64)
    (hg : 0 < g) (hrange : t - lo + 1 < W32) (hq : t + g < W64) :
    pick_ldist_quant ⟨lo, t, g⟩ r =
      if g = 1 then lo + r % (t - lo + 1) else ceilQuant g (lo + r % (t - lo + 1)) := by
  have hWW : W32 < W64 := by decide
  simp only [pick_ldist_quant, ceilQuant]
  have hlo64 : lo % W64 = lo := Nat.mod_eq_of_lt (by omega)
  have hbase : (t + (W64 - lo % W64)) % W64 % W64 = t - lo := by
    rw [hlo64]
    have h2 : t + (W64 - lo) = W64 + (t - lo) := by omega
    rw [h2, Nat.add_mod_left, Nat.mod_eq_of_lt (show t - lo < W64 by omega),
        Nat.mod_eq_of_lt (show t - lo < W64 by omega)]
  have hbase2 : ((t + (W64 - lo % W64)) % W64 + 1) % W64 % W32 = t - lo + 1 := by
    rw [hlo64]
    have h2 : t + (W64 - lo) = W64 + (t - lo) := by omega
    rw [h2, Nat.add_mod_left, Nat.mod_eq_of_lt (show t - lo < W64 by omega),
        Nat.mod_eq_of_lt (show t - lo + 1 < W64 by omega), Nat.mod_eq_of_lt hrange]
  simp only [hbase2, Nat.mod_eq_of_lt hr]
  have hrm : r % (t - lo + 1) ≤ t - lo := by
    have := Nat.mod_lt r (show 0 < t - lo + 1 by omega)
    omega
  have hl2 : (r % (t - lo + 1) + lo) % W64 = lo + r % (t - lo + 1) := by
    rw [Nat.mod_eq_of_lt (by omega)]
    omega
  rw [hl2]
  by_cases hg1 : g = 1
  · subst hg1
    simp
  · have hg2 : 1 < g := by omega
    rw [if_pos hg2, if_neg hg1]
    have heq : lo + r % (t - lo + 1) + (g - 1) = lo + r % (t - lo + 1) + g - 1 := by omega
    rw [Nat.mod_eq_of_lt (show lo + r % (t - lo + 1) + (g - 1) < W64 by omega), heq]
    have hdiv : (lo + r % (t - lo + 1) + g - 1) / g * g ≤ lo + r % (t - lo + 1) + g - 1 :=
      Nat.div_mul_le_self _ _
    rw [Nat.mod_eq_of_lt (by omega)]

theorem pick_ldist_fst (f t g r : Nat) :
    (pick_ldist ⟨f, t, g⟩ r).1 =
      pick_ldist_quant ⟨min f t, t, g⟩ r := by
  simp only [pick_ldist]
  by_cases hft : f > t
  · rw [if_pos (by simpa using hft)]
    have : min f t = t := by omega
    rw [this]
  · rw [if_neg (by simpa using hft)]
    have : min f t = f := by omega
    rw [this]

/-- C2.  For every random draw `r`, `pick_ldist` returns
`from + (r mod (ldist_to - ldist_from + 1))` rounded up to the next multiple of
`ldist_gran` (ceiling quantization); when `ldist_gran = 1` no quantization is
applied; when `ldist_from > ldist_to` the range collapses to `ldist_to`; and
the pre-quantization value ranges exactly (one residue class per value) over
the inclusive range `[lo, ldist_to]`. -/
theorem c2_pick_ldist_uniform_quantized (s : PickState) (r : Nat)
    (hto : s.ldist_to < W64) (hr : r < W64) (hg : 0 < s.ldist_gran)
    (hrange : s.ldist_to - ldist_lo s + 1 < W32)
    (hq : s.ldist_to + s.ldist_gran < W64) :
    ((pick_ldist s r).1 =
      if s.ldist_gran = 1 then preQuant s r else ceilQuant s.ldist_gran (preQuant s r))
    ∧ (s.ldist_from > s.ldist_to → preQuant s r = s.ldist_to)
    ∧ (ldist_lo s ≤ preQuant s r ∧ preQuant s r ≤ s.ldist_to)
    ∧ (∀ v, ldist_lo s ≤ v → v ≤ s.ldist_to →
        ∃! i, i < s.ldist_to - ldist_lo s + 1 ∧ ldist_lo s + i = v) := by
  obtain ⟨f, t, g⟩ := s
  dsimp only [ldist_lo, preQuant] at *
  have hmin : min f t ≤ t := min_le_right _ _
  have hrm : r % (t - min f t + 1) ≤ t - min f t := by
    have := Nat.mod_lt r (show 0 < t - min f t + 1 by omega)
    omega
  refine ⟨?_, ?_, ?_, ?_⟩
  · rw [pick_ldist_fst, pick_ldist_core (min f t) t g r hmin hto hr hg hrange hq]
  · intro hft
    have hlo : min f t = t := by omega
    simp [hlo, Nat.mod_one]
  · exact ⟨Nat.le_add_right _ _, by omega⟩
  · intro v hv1 hv2
    refine ⟨v - min f t, ⟨by omega, by omega⟩, ?_⟩
    intro y hy
    omega

/-- C1 counterexample.  The claim requires a successful `ldist_from` write to
be a multiple of `ldist_gran`; but 1001 is not a multiple of 100, lies inside
`[ldist_min, ldist_max]`, keeps `ldist_from ≤ ldist_to`, the engine is
disabled, and the write nevertheless succeeds: `dfs_write_rw_u64_file`
performs no granularity check. -/
theorem c1_no_granularity_check :
    (dfs_write_rw_u64 c1ConfigState .fromFile 1001).2 = .ok ()
    ∧ 1001 % c1ConfigState.ldist_gran ≠ 0
    ∧ c1ConfigState.enabled = false
    ∧ c1ConfigState.ldist_min ≤ 1001 ∧ 1001 ≤ c1ConfigState.ldist_max
    ∧ 1001 ≤ c1ConfigState.ldist_to := by
  refine ⟨rfl, by decide, rfl, by decide, by decide, by decide⟩

/-- C1 (amended).  A write to `ldist_from` (resp. `ldist_to`) succeeds iff the
engine is disabled, the value lies in `[ldist_min, ldist_max]`, and the value
keeps `ldist_from ≤ ldist_to`; there is no granularity requirement.  While
enabled the write fails with `-EBUSY`, any other failure is `-EINVAL`, and
every failure leaves the configuration unchanged; success stores exactly the
written value in the selected field. -/
theorem c1_ldist_write_amended (s : ConfigState) (w : LdistFile) (v : Nat) :
    ((dfs_write_rw_u64 s w v).2 = .ok () ↔
      (s.enabled = false ∧ s.ldist_min ≤ v ∧ v ≤ s.ldist_max ∧
        (match w with
         | .fromFile => v ≤ s.ldist_to
         | .toFile => s.ldist_from ≤ v)))
    ∧ (s.enabled = true → (dfs_write_rw_u64 s w v).2 = .error (-EBUSY))
    ∧ (s.enabled = false → (dfs_write_rw_u64 s w v).2 ≠ .ok () →
        (dfs_write_rw_u64 s w v).2 = .error (-EINVAL))
    ∧ ((dfs_write_rw_u64 s w v).2 ≠ .ok () → (dfs_write_rw_u64 s w v).1 = s)
    ∧ ((dfs_write_rw_u64 s w v).2 = .ok () →
        (dfs_write_rw_u64 s w v).1 =
          (match w with
           | .fromFile => { s with ldist_from := v }
           | .toFile => { s with ldist_to := v })) := by
  unfold dfs_write_rw_u64
  rcases w <;> split_ifs with h1 h2 h3 <;> simp_all <;> omega

/-- C1 witness: the amended theorem applied to a concrete enabled state. -/
theorem c1_ldist_write_amended_witness :
    (dfs_write_rw_u64 { c1ConfigState with enabled := true } .fromFile 2000).2 =
      .error (-EBUSY) :=
  (c1_ldist_write_amended { c1ConfigState with enabled := true } .fromFile 2000).2.1 rfl

/-- C2 witness: the pick theorem applied at a concrete configuration and draw. -/
theorem c2_pick_ldist_uniform_quantized_witness :
    ((pick_ldist ⟨1000, 4000000, 100⟩ 987654321987654321).1 =
      if (100 : Nat) = 1 then preQuant ⟨1000, 4000000, 100⟩ 987654321987654321
      else ceilQuant 100 (preQuant ⟨1000, 4000000, 100⟩ 987654321987654321))
    ∧ ((1000 : Nat) > 4000000 → preQuant ⟨1000, 4000000, 100⟩ 987654321987654321 = 4000000)
    ∧ (ldist_lo ⟨1000, 4000000, 100⟩ ≤ preQuant ⟨1000, 4000000, 100⟩ 987654321987654321
        ∧ preQuant ⟨1000, 4000000, 100⟩ 987654321987654321 ≤ 4000000)
    ∧ (∀ v, ldist_lo ⟨1000, 4000000, 100⟩ ≤ v → v ≤ 4000000 →
        ∃! i, i < 4000000 - ldist_lo ⟨1000, 4000000, 100⟩ + 1
          ∧ ldist_lo ⟨1000, 4000000, 100⟩ + i = v) := by
  have h := c2_pick_ldist_uniform_quantized ⟨1000, 4000000, 100⟩ 987654321987654321
    (by decide) (by decide) (by decide) (by decide) (by decide)
  exact ⟨h.1, h.2.1, h.2.2.1, h.2.2.2⟩

/-- C3 counterexample.  Running `intel_cstate_init` with every probe read
succeeding with value zero marks no counter absent (absence is triggered only
by a faulting `rdmsrl_safe`), and the CC3 entry - whose probe returned zero -
still contributes its `CC3Cyc` field to the declared record. -/
theorem c3_zero_probe_not_absent :
    (∀ cs ∈ intel_cstate_init intel_cstates zeroProbe true, cs.absent = false)
    ∧ "CC3Cyc" ∈ (wult_synth_fields (intel_cstate_init intel_cstates zeroProbe true) []).map
        Prod.snd := by
  decide

/-- C3 (amended).  During CSI initialization a counter is marked absent
exactly when its probe read raises an exception; a counter whose probe read
merely returns zero stays present and still contributes its per-C-state
field to the declared record, and the CC1 head entry is never left marked
absent. -/
theorem c3_absent_iff_probe_faults (cc1 : CState) (rest : List CState)
    (probe : Nat → Option Nat) (listed : Bool)
    (h1 : cc1.msr ≠ 0) (h2 : ∀ cs ∈ rest, cs.msr ≠ 0)
    (h3 : cc1.absent = false) (h4 : ∀ cs ∈ rest, cs.absent = false) :
    ∃ head,
      intel_cstate_init (cc1 :: rest) probe listed =
        head :: rest.map (fun cs =>
          if probe cs.msr = none then { cs with msr := 0, absent := true } else cs)
      ∧ head.absent = false
      ∧ (∀ cs ∈ rest, (probe cs.msr).isSome →
          cs ∈ intel_cstate_init (cc1 :: rest) probe listed)
      ∧ (∀ cs ∈ rest, (probe cs.msr).isSome →
          (cs.name ++ "Cyc") ∈
            (wult_synth_fields (intel_cstate_init (cc1 :: rest) probe listed) []).map
              Prod.snd) := by
  have hmap : rest.map (fun cs =>
        if cs.msr ≠ 0 then
          match probe cs.msr with
          | none => { cs with msr := 0, absent := true }
          | some _ => cs
        else cs) =
      rest.map (fun cs =>
        if probe cs.msr = none then { cs with msr := 0, absent := true } else cs) := by
    apply List.map_congr_left
    intro cs hcs
    rw [if_pos (h2 cs hcs)]
    cases hp : probe cs.msr <;> simp [hp]
  have hmem : ∀ cs ∈ rest, (probe cs.msr).isSome →
      cs ∈ rest.map (fun cs =>
        if probe cs.msr = none then { cs with msr := 0, absent := true } else cs) := by
    intro cs hcs hp
    have : (fun cs =>
        if probe cs.msr = none then { cs with msr := 0, absent := true } else cs) cs = cs := by
      simp only []
      rw [if_neg]
      simp [Option.isSome_iff_exists] at hp
      obtain ⟨v, hv⟩ := hp
      simp [hv]
    rw [← this]
    exact List.mem_map_of_mem _ hcs
  have hfield : ∀ (l : List CState), ∀ cs ∈ l, cs.absent = false → cs.msr ≠ 0 →
      (cs.name ++ "Cyc") ∈ (wult_synth_fields l []).map Prod.snd := by
    intro l cs hcs hab hmsr
    have hv : cs ∈ validCstates l := by
      simp only [validCstates, List.mem_filter]
      exact ⟨hcs, by simp [hab, hmsr]⟩
    simp only [wult_synth_fields, List.map_append, List.mem_append]
    refine Or.inl (Or.inr ?_)
    simp only [List.map_map, List.mem_map]
    exact ⟨cs, hv, rfl⟩
  unfold intel_cstate_init
  simp only [List.map_cons, hmap]
  rw [if_pos h1]
  cases hp : probe cc1.msr with
  | none =>
      simp only []
      refine ⟨{ cc1 with msr := 0, absent := false }, ?_, rfl, ?_, ?_⟩
      · simp [h3]
      · intro cs hcs hps
        exact List.mem_cons_of_mem _ (hmem cs hcs hps)
      · intro cs hcs hps
        apply hfield
        · exact List.mem_cons_of_mem _ (hmem cs hcs hps)
        · exact h4 cs hcs
        · exact h2 cs hcs
  | some v =>
      rw [if_neg (by simp [h3])]
      cases listed with
      | true =>
          rw [if_pos rfl]
          refine ⟨cc1, rfl, h3, ?_, ?_⟩
          · intro cs hcs hps
            exact List.mem_cons_of_mem _ (hmem cs hcs hps)
          · intro cs hcs hps
            apply hfield
            · exact List.mem_cons_of_mem _ (hmem cs hcs hps)
            · exact h4 cs hcs
            · exact h2 cs hcs
      | false =>
          rw [if_neg (by simp)]
          refine ⟨{ cc1 with msr := 0 }, rfl, h3, ?_, ?_⟩
          · intro cs hcs hps
            exact List.mem_cons_of_mem _ (hmem cs hcs hps)
          · intro cs hcs hps
            apply hfield
            · exact List.mem_cons_of_mem _ (hmem cs hcs hps)
            · exact h4 cs hcs
            · exact h2 cs hcs

/-- C3 witness: the amended theorem applied to the Intel table with a probe
faulting exactly on the CC3 MSR. -/
theorem c3_absent_iff_probe_faults_witness :
    ∃ head,
      intel_cstate_init intel_cstates
          (fun m => if m = 0x3FC then none else some 0) true =
        head :: (intel_cstates.tail).map (fun cs =>
          if (fun m => if m = 0x3FC then none else some (0 : Nat)) cs.msr = none
          then { cs with msr := 0, absent := true } else cs)
      ∧ head.absent = false
      ∧ (∀ cs ∈ intel_cstates.tail,
          ((fun m => if m = 0x3FC then none else some (0 : Nat)) cs.msr).isSome →
          cs ∈ intel_cstate_init intel_cstates
            (fun m => if m = 0x3FC then none else some 0) true)
      ∧ (∀ cs ∈ intel_cstates.tail,
          ((fun m => if m = 0x3FC then none else some (0 : Nat)) cs.msr).isSome →
          (cs.name ++ "Cyc") ∈
            (wult_synth_fields (intel_cstate_init intel_cstates
              (fun m => if m = 0x3FC then none else some 0) true) []).map Prod.snd) :=
  c3_absent_iff_probe_faults
    { name := "CC1", msr := 0x660, core := true, absent := false,
      cyc1 := 0, cyc2 := 0, cyc := 0 }
    intel_cstates.tail (fun m => if m = 0x3FC then none else some 0) true
    (by decide) (by decide) rfl (by decide)

theorem coreCycFold_spec (l : List CState) : ∀ a : Nat, a < W64 →
    (List.foldl (fun acc e => if e.msr ≠ 0 ∧ e.core then (acc + e.cyc) % W64 else acc) a l
      < W64)
    ∧ (((List.foldl (fun acc e => if e.msr ≠ 0 ∧ e.core then (acc + e.cyc) % W64 else acc)
        a l : Nat) : Int) % (W64 : Nat) = ((a : Int) + coreCycSum l) % (W64 : Nat)) := by
  induction l with
  | nil =>
      intro a ha
      exact ⟨ha, by simp [coreCycSum]⟩
  | cons e l ih =>
      intro a ha
      by_cases hc : e.msr ≠ 0 ∧ e.core
      · have hstep : (a + e.cyc) % W64 < W64 := Nat.mod_lt _ (by decide)
        have h2 := ih ((a + e.cyc) % W64) hstep
        have hfold : List.foldl
            (fun acc e => if e.msr ≠ 0 ∧ e.core then (acc + e.cyc) % W64 else acc)
            a (e :: l) =
          List.foldl (fun acc e => if e.msr ≠ 0 ∧ e.core then (acc + e.cyc) % W64 else acc)
            ((a + e.cyc) % W64) l := by
          rw [List.foldl_cons, if_pos hc]
        constructor
        · rw [hfold]; exact h2.1
        · have hsum : coreCycSum (e :: l) = (e.cyc : Int) + coreCycSum l := by
            simp [coreCycSum, List.filter_cons, hc]
          have hmod : (((a + e.cyc) % W64 : Nat) : Int) % (W64 : Nat) =
              ((a : Int) + (e.cyc : Int)) % (W64 : Nat) := by
            push_cast
            rw [Int.emod_emod_of_dvd _ dvd_rfl]
          rw [hfold, h2.2, hsum, Int.add_emod, hmod, ← Int.add_emod]
          ring_nf
      · have h2 := ih a ha
        have hsum : coreCycSum (e :: l) = coreCycSum l := by
          simp [coreCycSum, List.filter_cons, hc]
        have hfold : List.foldl
            (fun acc e => if e.msr ≠ 0 ∧ e.core then (acc + e.cyc) % W64 else acc)
            a (e :: l) =
          List.foldl (fun acc e => if e.msr ≠ 0 ∧ e.core then (acc + e.cyc) % W64 else acc)
            a l := by
          rw [List.foldl_cons, if_neg hc]
        exact ⟨by rw [hfold]; exact h2.1, by rw [hfold, h2.2, hsum]⟩

theorem coreCycSum_cons (e : CState) (l : List CState) :
    coreCycSum (e :: l) =
      (if e.msr ≠ 0 ∧ e.core then (e.cyc : Int) else 0) + coreCycSum l := by
  by_cases h : e.msr ≠ 0 ∧ e.core <;> simp [coreCycSum, List.filter_cons, h]

theorem coreDeltaSum_cons (e : CState) (l : List CState) :
    coreDeltaSum (e :: l) =
      (if e.msr ≠ 0 ∧ e.core then (sub64 e.cyc2 e.cyc1 : Int) else 0) + coreDeltaSum l := by
  by_cases h : e.msr ≠ 0 ∧ e.core <;> simp [coreDeltaSum, List.filter_cons, h]

/-- Applying the per-counter delta map turns the stored-cyc core sum into the
delta core sum. -/
theorem coreCycSum_map_delta (l : List CState) :
    coreCycSum (l.map (fun cs =>
      if cs.msr ≠ 0 then { cs with cyc := sub64 cs.cyc2 cs.cyc1 } else cs)) =
    coreDeltaSum l := by
  induction l with
  | nil => simp [coreCycSum, coreDeltaSum]
  | cons e l ih =>
      rw [List.map_cons, coreCycSum_cons, coreDeltaSum_cons, ih]
      by_cases hm : e.msr ≠ 0
      · by_cases hcore : e.core
        · simp [hm, hcore]
        · simp [hm, hcore]
      · simp [hm]

/-- C4.  When the first registry entry (CC1) has no hardware MSR,
`wult_cstates_calc` derives its residency as
`reference_cycles_delta - active_cycles_delta - sum of the residency deltas
of the other core C-states`, all in wrapping unsigned 64-bit arithmetic,
while every counter that does have an MSR gets the delta `cyc2 - cyc1`. -/
theorem c4_derived_cc1 (c : CstatesInfo) (cc1 : CState) (rest : List CState)
    (hc : c.cstates = cc1 :: rest) (hmsr : cc1.msr = 0) :
    (wult_cstates_calc c).cstates =
      { cc1 with cyc :=
          ((((sub64 c.tsc2 c.tsc1 : Int) - (sub64 c.mperf2 c.mperf1 : Int)
            - coreDeltaSum rest) % (W64 : Nat))).toNat }
      :: rest.map (fun e =>
          if e.msr ≠ 0 then { e with cyc := sub64 e.cyc2 e.cyc1 } else e) := by
  have hfc : (if cc1.msr ≠ 0 then { cc1 with cyc := sub64 cc1.cyc2 cc1.cyc1 } else cc1)
      = cc1 := by
    rw [if_neg (by simp [hmsr])]
  unfold wult_cstates_calc
  simp only [hc, List.map_cons, hfc]
  rw [if_pos hmsr]
  have harith : sub64 (sub64 c.tsc2 c.tsc1)
      ((coreCycFold (cc1 :: rest.map (fun cs =>
          if cs.msr ≠ 0 then { cs with cyc := sub64 cs.cyc2 cs.cyc1 } else cs))
        + sub64 c.mperf2 c.mperf1) % W64)
      = ((((sub64 c.tsc2 c.tsc1 : Int) - (sub64 c.mperf2 c.mperf1 : Int)
          - coreDeltaSum rest) % (W64 : Nat))).toNat := by
    set F : Nat := coreCycFold (cc1 :: rest.map (fun cs =>
      if cs.msr ≠ 0 then { cs with cyc := sub64 cs.cyc2 cs.cyc1 } else cs)) with hF
    have hfold := coreCycFold_spec (cc1 :: rest.map (fun cs =>
      if cs.msr ≠ 0 then { cs with cyc := sub64 cs.cyc2 cs.cyc1 } else cs)) 0 (by decide)
    have hsum : coreCycSum (cc1 :: rest.map (fun cs =>
        if cs.msr ≠ 0 then { cs with cyc := sub64 cs.cyc2 cs.cyc1 } else cs))
        = coreDeltaSum rest := by
      have h1 : coreCycSum (cc1 :: rest.map (fun cs =>
          if cs.msr ≠ 0 then { cs with cyc := sub64 cs.cyc2 cs.cyc1 } else cs))
          = coreCycSum (rest.map (fun cs =>
          if cs.msr ≠ 0 then { cs with cyc := sub64 cs.cyc2 cs.cyc1 } else cs)) := by
        simp [coreCycSum, List.filter_cons, hmsr]
      rw [h1, coreCycSum_map_delta]
    have hcongr : (F : Int) % (W64 : Nat) = coreDeltaSum rest % (W64 : Nat) := by
      have h2 := hfold.2
      rw [hsum] at h2
      rw [hF]
      unfold coreCycFold
      simpa using h2
    have hM : (sub64 (sub64 c.tsc2 c.tsc1) ((F + sub64 c.mperf2 c.mperf1) % W64) : Int)
        = ((sub64 c.tsc2 c.tsc1 : Int) - (sub64 c.mperf2 c.mperf1 : Int)
            - coreDeltaSum rest) % (W64 : Nat) := by
      rw [sub64_int]
      have hcast : (((F + sub64 c.mperf2 c.mperf1) % W64 : Nat) : Int)
          = ((F : Int) + (sub64 c.mperf2 c.mperf1 : Int)) % (W64 : Nat) := by
        push_cast
        ring_nf
      rw [hcast]
      rw [Int.sub_emod, Int.emod_emod_of_dvd _ dvd_rfl, ← Int.sub_emod]
      rw [Int.sub_emod ((sub64 c.tsc2 c.tsc1 : Int))]
      rw [Int.add_emod (F : Int), hcongr, ← Int.add_emod, ← Int.sub_emod]
      ring_nf
    have := congrArg Int.toNat hM
    simpa using this
  rw [harith]

/-- C4 witness: the theorem applied to a single-entry registry whose CC1 has
no MSR. -/
theorem c4_derived_cc1_witness :
    (wult_cstates_calc
      { cstates := [{ name := "CC1", msr := 0, core := true, absent := false,
                      cyc1 := 0, cyc2 := 0, cyc := 0 }],
        tsc1 := 0, tsc2 := 1000, tsc := 0, mperf1 := 0, mperf2 := 100,
        mperf := 0 }).cstates =
      { name := "CC1", msr := 0, core := true, absent := false,
        cyc1 := 0, cyc2 := 0,
        cyc := ((((sub64 1000 0 : Int) - (sub64 100 0 : Int)
          - coreDeltaSum []) % (W64 : Nat))).toNat }
      :: ([] : List CState).map (fun e =>
          if e.msr ≠ 0 then { e with cyc := sub64 e.cyc2 e.cyc1 } else e) :=
  c4_derived_cc1 _ _ _ rfl rfl

theorem calc_tsc_mperf (c : CstatesInfo) :
    (wult_cstates_calc c).tsc = sub64 c.tsc2 c.tsc1
    ∧ (wult_cstates_calc c).mperf = sub64 c.mperf2 c.mperf1 := by
  unfold wult_cstates_calc
  cases hcs : c.cstates with
  | nil => simp [hcs]
  | cons a l =>
      simp only [hcs, List.map_cons]
      split_ifs <;> exact ⟨rfl, rfl⟩

theorem calc_mem_delta (c : CstatesInfo) (e : CState) (he : e ∈ c.cstates)
    (hm : e.msr ≠ 0) :
    { e with cyc := sub64 e.cyc2 e.cyc1 } ∈ (wult_cstates_calc c).cstates := by
  unfold wult_cstates_calc
  cases hcs : c.cstates with
  | nil =>
      rw [hcs] at he
      simp at he
  | cons a l =>
      rw [hcs] at he
      simp only [hcs, List.map_cons]
      by_cases ha : a.msr = 0
      · have hfa : (if a.msr ≠ 0 then { a with cyc := sub64 a.cyc2 a.cyc1 } else a) = a := by
          rw [if_neg (by simp [ha])]
        rw [hfa, if_pos ha]
        rcases List.mem_cons.1 he with rfl | hel
        · exact absurd ha hm
        · refine List.mem_cons_of_mem _ ?_
          exact List.mem_map.2 ⟨e, hel, by rw [if_pos hm]⟩
      · have hfa : (if a.msr ≠ 0 then { a with cyc := sub64 a.cyc2 a.cyc1 } else a)
            = { a with cyc := sub64 a.cyc2 a.cyc1 } := by
          rw [if_pos ha]
        rw [hfa, if_neg (by simpa using ha)]
        rcases List.mem_cons.1 he with rfl | hel
        · exact List.mem_cons_self _ _
        · refine List.mem_cons_of_mem _ ?_
          exact List.mem_map.2 ⟨e, hel, by rw [if_pos hm]⟩

/-- C9 (amended).  `wult_cstates_calc` is total: it performs no snapshot
ordering check and cannot fail.  It always stores `dtsc = tsc2 - tsc1` and
`dmperf = mperf2 - mperf1` (wrapping u64), every counter with an MSR gets the
delta `cyc2 - cyc1`, and emission proceeds regardless of the TSC ordering:
for any in-window datapoint - even one whose csinfo has `tsc1 > tsc2` - the
record is still emitted (there is no CounterMisorder drop in this code). -/
theorem c9_calc_total_no_misorder (c : CstatesInfo) (s : TracerState) (env : SendEnv)
    (hdp : s.got_dp = true) (hdis : s.discard_dp = false)
    (hw1 : s.tbi < env.ltime) (hw2 : env.ltime < s.tai)
    (hstart : env.start_err = none)
    (htd : env.trace_data = none ∨ ∃ l, env.trace_data = some (.ok l)) :
    ((wult_cstates_calc c).tsc = sub64 c.tsc2 c.tsc1)
    ∧ ((wult_cstates_calc c).mperf = sub64 c.mperf2 c.mperf1)
    ∧ (∀ e ∈ c.cstates, e.msr ≠ 0 →
        { e with cyc := sub64 e.cyc2 e.cyc1 } ∈ (wult_cstates_calc c).cstates)
    ∧ (∃ v, (wult_tracer_send_data s env).2 = .emitted v) := by
  refine ⟨(calc_tsc_mperf c).1, (calc_tsc_mperf c).2,
    fun e he hm => calc_mem_delta c e he hm, ?_⟩
  unfold wult_tracer_send_data
  rw [if_neg (by simp [hdp, hdis])]
  rw [if_neg (by dsimp only; omega)]
  rcases htd with h | ⟨l, h⟩ <;>
    · rw [h]
      unfold send_emit
      rw [hstart]
      exact ⟨_, rfl⟩

/-- C9 counterexample.  The claim says `calc(from, to)` fails and the record
is dropped whenever `tsc[from] > tsc[to]`; but on a state with
`tsc1 = 100 > tsc2 = 50` the emission still produces a record -
`wult_cstates_calc` has no failure path and nothing checks the TSC
ordering. -/
theorem c9_no_misorder_drop :
    c9state.csinfo.tsc1 > c9state.csinfo.tsc2
    ∧ (wult_tracer_send_data c9state c9env).2 = .emitted [40, 50, 10, 5, 1, 0, 0, 0, 0] := by
  constructor
  · decide
  · rfl

/-- C9 witness: the amended theorem applied to `c9state` / `c9env`. -/
theorem c9_calc_total_no_misorder_witness :
    ((wult_cstates_calc c9state.csinfo).tsc = sub64 c9state.csinfo.tsc2 c9state.csinfo.tsc1)
    ∧ ((wult_cstates_calc c9state.csinfo).mperf
        = sub64 c9state.csinfo.mperf2 c9state.csinfo.mperf1)
    ∧ (∀ e ∈ c9state.csinfo.cstates, e.msr ≠ 0 →
        { e with cyc := sub64 e.cyc2 e.cyc1 } ∈ (wult_cstates_calc c9state.csinfo).cstates)
    ∧ (∃ v, (wult_tracer_send_data c9state c9env).2 = .emitted v) :=
  c9_calc_total_no_misorder c9state.csinfo c9state c9env rfl rfl (by decide) (by decide)
    rfl (Or.inl rfl)

/-- C5 counterexample.  The claim says `send_data` emits no record whenever
`ltime ≥ tintr`; but with `tintr = 5 ≤ ltime = 50` and `tbi < ltime < tai`
the code emits a record: the window check (tracer.c:254) compares `ltime`
only against `tbi` and `tai`, never against `tintr` (the `IntrLatency` value
simply wraps around). -/
theorem c5_no_tintr_check :
    c5env.ltime ≥ c5state.tintr
    ∧ (wult_tracer_send_data c5state c5env).2 =
        .emitted [40, 50, 18446744073709551571, 7, 2, 0, 0, 0, 0] := by
  constructor
  · decide
  · rfl

/-- C5 (amended).  With the trace infrastructure succeeding,
`wult_tracer_send_data` returns success with no record exactly when no
datapoint was collected, it was marked discarded, `ltime ≤ tbi`, or
`ltime ≥ tai`; and it emits a record exactly when a non-discarded datapoint
exists and `tbi < ltime < tai`.  `tintr` plays no part in the decision. -/
theorem c5_send_window_amended (s : TracerState) (env : SendEnv)
    (hstart : env.start_err = none)
    (htd : env.trace_data = none ∨ ∃ l, env.trace_data = some (.ok l)) :
    ((wult_tracer_send_data s env).2 = .dropped ↔
      (s.got_dp = false ∨ s.discard_dp = true ∨ env.ltime ≤ s.tbi ∨ s.tai ≤ env.ltime))
    ∧ ((∃ v, (wult_tracer_send_data s env).2 = .emitted v) ↔
      (s.got_dp = true ∧ s.discard_dp = false ∧ s.tbi < env.ltime ∧ env.ltime < s.tai)) := by
  unfold wult_tracer_send_data
  by_cases h1 : ¬s.got_dp ∨ s.discard_dp
  · rw [if_pos h1]
    constructor
    · simp only [true_iff]
      rcases h1 with h | h
      · exact Or.inl (by simpa using h)
      · exact Or.inr (Or.inl h)
    · constructor
      · rintro ⟨v, hv⟩
        cases hv
      · rintro ⟨hg, hd, -⟩
        rcases h1 with h | h
        · exact absurd hg (by simpa using h)
        · rw [hd] at h
          cases h
  · rw [if_neg h1]
    have hg : s.got_dp = true := by
      rcases not_or.1 h1 with ⟨h2, -⟩
      simpa using not_not.1 h2
    have hd : s.discard_dp = false := by
      rcases not_or.1 h1 with ⟨-, h2⟩
      simpa using h2
    by_cases hw : env.ltime ≤ s.tbi ∨ env.ltime ≥ s.tai
    · rw [if_pos hw]
      constructor
      · simp only [true_iff]
        rcases hw with h | h
        · exact Or.inr (Or.inr (Or.inl h))
        · exact Or.inr (Or.inr (Or.inr h))
      · constructor
        · rintro ⟨v, hv⟩
          cases hv
        · rintro ⟨-, -, h3, h4⟩
          omega
    · rw [if_neg hw]
      have hemit : ∀ tdata, ∃ v, (send_emit { s with got_dp := false, discard_dp := false }
          env.ltime tdata env).2 = .emitted v := by
        intro tdata
        unfold send_emit
        rw [hstart]
        exact ⟨_, rfl⟩
      rcases htd with h | ⟨l, h⟩ <;>
        · rw [h]
          constructor
          · constructor
            · intro hv
              obtain ⟨v, hv2⟩ := hemit _
              rw [hv2] at hv
              cases hv
            · intro hv
              rcases hv with h2 | h2 | h2 | h2
              · rw [hg] at h2; cases h2
              · rw [hd] at h2; cases h2
              · omega
              · omega
          · constructor
            · intro
              exact ⟨hg, hd, by omega, by omega⟩
            · intro
              exact hemit _

/-- C5 witness: the amended theorem applied to `c5state` / `c5env`. -/
theorem c5_send_window_amended_witness :
    ((wult_tracer_send_data c5state c5env).2 = .dropped ↔
      (c5state.got_dp = false ∨ c5state.discard_dp = true ∨ c5env.ltime ≤ c5state.tbi
        ∨ c5state.tai ≤ c5env.ltime))
    ∧ ((∃ v, (wult_tracer_send_data c5state c5env).2 = .emitted v) ↔
      (c5state.got_dp = true ∧ c5state.discard_dp = false ∧ c5state.tbi < c5env.ltime
        ∧ c5env.ltime < c5state.tai)) :=
  c5_send_window_amended c5state c5env rfl (Or.inl rfl)

theorem after_idle_no_latch (s : TracerState) (e : HookEnv)
    (h : s.bi_finished = false) : after_idle s e = s := by
  unfold after_idle
  rw [if_pos (by simp [h])]

theorem interrupt_no_latch (s : TracerState) (e : HookEnv)
    (h : s.bi_finished = false) : wult_tracer_interrupt s e = s := by
  unfold wult_tracer_interrupt
  rw [if_pos (by simp [h])]

theorem exit_hook_no_latch (s : TracerState) (e : HookEnv)
    (h : s.bi_finished = false) :
    cpu_idle_hook s PWR_EVENT_EXIT s.cpunum e = { s with ai_finished := true } := by
  unfold cpu_idle_hook
  rw [if_neg (by simp), if_pos rfl, after_idle_no_latch s e h]

/-- C7.  `bi_finished` is an iteration latch: an idle-entry notification for
the measured CPU leaves the hook with the latch set and every other
per-iteration flag cleared (the latch is cleared first and set only after
`before_idle` completes); `after_idle` and the interrupt hook are complete
no-ops while the latch is unset; and any sequence of idle-exit notifications
and interrupts delivered to an un-latched tracer leaves the per-iteration
datapoint unchanged with the latch still unset. -/
theorem c7_bi_finished_latch :
    (∀ (s : TracerState) (rc : Nat) (e : HookEnv),
      rc ≠ PWR_EVENT_EXIT →
        (cpu_idle_hook s rc s.cpunum e).bi_finished = true
        ∧ (cpu_idle_hook s rc s.cpunum e).got_dp = false
        ∧ (cpu_idle_hook s rc s.cpunum e).discard_dp = false
        ∧ (cpu_idle_hook s rc s.cpunum e).ai_finished = false
        ∧ (cpu_idle_hook s rc s.cpunum e).intr_finished = false)
    ∧ (∀ (s : TracerState) (e : HookEnv), s.bi_finished = false → after_idle s e = s)
    ∧ (∀ (s : TracerState) (e : HookEnv), s.bi_finished = false →
        wult_tracer_interrupt s e = s)
    ∧ (∀ (s : TracerState) (evs : List IdleEvent), s.bi_finished = false →
        datapoint (runEvents s evs) = datapoint s
        ∧ (runEvents s evs).bi_finished = false) := by
  refine ⟨?_, after_idle_no_latch, interrupt_no_latch, ?_⟩
  · intro s rc e hrc
    unfold cpu_idle_hook
    rw [if_neg (by simp), if_neg hrc]
    unfold before_idle
    exact ⟨rfl, rfl, rfl, rfl, rfl⟩
  · intro s evs
    induction evs generalizing s with
    | nil => exact fun h => ⟨rfl, h⟩
    | cons ev evs ih =>
        intro h
        cases ev with
        | exitHook e =>
            have hstep := exit_hook_no_latch s e h
            have hbi : ({ s with ai_finished := true } : TracerState).bi_finished = false := h
            have hrec := ih { s with ai_finished := true } hbi
            simp only [runEvents, hstep]
            exact ⟨hrec.1.trans rfl, hrec.2⟩
        | irq e =>
            have hstep := interrupt_no_latch s e h
            simp only [runEvents, hstep]
            exact ih s h

/-- C7 witness: the latch theorem applied to the concrete un-latched state. -/
theorem c7_bi_finished_latch_witness : after_idle c7state c7env = c7state :=
  c7_bi_finished_latch.2.1 c7state c7env rfl

/-- C8 counterexample.  The declared schema starts with `SilentTime`, not
`LDist`, and with no C-states and no driver data it has 9 fields, not 22:
the claimed `LDist, LTime, TBI, TBIAdj, ...` layout and the `22 + ...` field
count do not match `common_fields`. -/
theorem c8_field_layout_counterexample :
    (wult_synth_fields [] []).length = 9
    ∧ ((wult_synth_fields [] []).map Prod.snd).head? = some "SilentTime"
    ∧ (wult_synth_fields [] []).length ≠ 22 + (validCstates []).length + 0
    ∧ ((wult_synth_fields [] []).map Prod.snd).head? ≠ some "LDist" := by
  decide

theorem validCstates_cons (e : CState) (l : List CState) :
    validCstates (e :: l) =
      if ¬e.absent ∧ e.msr ≠ 0 then e :: validCstates l else validCstates l := by
  by_cases h : ¬e.absent ∧ e.msr ≠ 0 <;> simp [validCstates, List.filter_cons, h]

theorem validCstates_map_length (l : List CState) :
    (validCstates (l.map (fun cs =>
      if cs.msr ≠ 0 then { cs with cyc := sub64 cs.cyc2 cs.cyc1 } else cs))).length
    = (validCstates l).length := by
  induction l with
  | nil => rfl
  | cons e l ih =>
      rw [List.map_cons, validCstates_cons, validCstates_cons]
      by_cases hm : e.msr ≠ 0
      · rw [if_pos hm]
        by_cases habs : e.absent
        · rw [if_neg (by simp [habs]), if_neg (by simp [habs])]
          exact ih
        · rw [if_pos ⟨(by simp [habs]), hm⟩, if_pos ⟨habs, hm⟩]
          simp only [List.length_cons, ih]
      · rw [if_neg hm, if_neg (by simp [hm]), if_neg (by simp [hm])]
        exact ih

theorem validCstates_calc_length (c : CstatesInfo) :
    (validCstates (wult_cstates_calc c).cstates).length
      = (validCstates c.cstates).length := by
  unfold wult_cstates_calc
  cases hcs : c.cstates with
  | nil => simp [hcs]
  | cons a l =>
      simp only [hcs, List.map_cons]
      by_cases ha : a.msr = 0
      · rw [show (if a.msr ≠ 0 then { a with cyc := sub64 a.cyc2 a.cyc1 } else a) = a from
          if_neg (by simp [ha]), if_pos ha]
        rw [validCstates_cons, if_neg (by simp [ha]), validCstates_cons,
          if_neg (by simp [ha])]
        exact validCstates_map_length l
      · rw [show (if a.msr ≠ 0 then { a with cyc := sub64 a.cyc2 a.cyc1 } else a)
            = { a with cyc := sub64 a.cyc2 a.cyc1 } from if_pos ha,
          if_neg (by simpa using ha)]
        rw [validCstates_cons, validCstates_cons]
        by_cases habs : a.absent
        · rw [if_neg (by simp [habs]), if_neg (by simp [habs])]
          exact validCstates_map_length l
        · rw [if_pos ⟨(by simp [habs]), (by simpa using ha)⟩, if_pos ⟨habs, ha⟩]
          simp only [List.length_cons, validCstates_map_length l]

/-- C8 (amended).  The declared field order of the `wult_cpu_idle` synthetic
event is `SilentTime, WakeLatency, IntrLatency, LDist, ReqCState, TotCyc,
CC0Cyc, SMICnt, NMICnt`, followed by one u64 `{name}Cyc` field per CSI entry
that is non-absent and has an MSR, in registry order, then the DES trace
fields; all fields are u64 except `ReqCState` (unsigned int); the field
count is `9 + count(valid CSI entries) + count(DES trace fields)`, and every
emitted record carries exactly that many values. -/
theorem c8_field_layout_amended (cs : List CState) (td : List (String × Nat)) :
    ((wult_synth_fields cs td).map Prod.snd =
      ["SilentTime", "WakeLatency", "IntrLatency", "LDist", "ReqCState",
       "TotCyc", "CC0Cyc", "SMICnt", "NMICnt"]
        ++ (validCstates cs).map (fun e => e.name ++ "Cyc") ++ td.map Prod.fst)
    ∧ ((wult_synth_fields cs td).length = 9 + (validCstates cs).length + td.length)
    ∧ (∀ f ∈ wult_synth_fields cs td, f.1 = "u64" ∨ f = ("unsigned int", "ReqCState"))
    ∧ (∀ (s : TracerState) (env : SendEnv) (tdata : List (String × Nat)),
        env.start_err = none → env.trace_data = some (.ok tdata) →
        s.got_dp = true → s.discard_dp = false →
        s.tbi < env.ltime → env.ltime < s.tai →
        ∃ v, (wult_tracer_send_data s env).2 = .emitted v
          ∧ v.length = 9 + (validCstates s.csinfo.cstates).length + tdata.length) := by
  refine ⟨?_, ?_, ?_, ?_⟩
  · simp only [wult_synth_fields, common_fields, List.map_append, List.map_map]
    rfl
  · simp only [wult_synth_fields, common_fields, List.length_append, List.length_map,
      List.length_cons, List.length_nil]
    try omega
  · intro f hf
    simp only [wult_synth_fields, common_fields, List.mem_append] at hf
    rcases hf with (hf | hf) | hf
    · simp only [List.mem_cons, List.not_mem_nil, or_false] at hf
      rcases hf with h | h | h | h | h | h | h | h | h
      all_goals simp [h]
    · left
      obtain ⟨e, -, he⟩ := List.mem_map.1 hf
      rw [← he]
    · left
      obtain ⟨p, -, hp⟩ := List.mem_map.1 hf
      rw [← hp]
  · intro s env tdata hstart htd hdp hdis hw1 hw2
    unfold wult_tracer_send_data
    rw [if_neg (by simp [hdp, hdis])]
    rw [if_neg (by dsimp only; omega)]
    rw [htd]
    unfold send_emit
    rw [hstart]
    refine ⟨_, rfl, ?_⟩
    simp only [List.length_append, List.length_cons, List.length_nil, List.length_map]
    have := validCstates_calc_length s.csinfo
    simp only [this]
    try omega

/-- C8 witness: the layout theorem applied to a one-entry registry and one
trace-data item. -/
theorem c8_field_layout_amended_witness :
    ((wult_synth_fields
        [{ name := "CC6", msr := 0x3FD, core := true, absent := false,
           cyc1 := 0, cyc2 := 0, cyc := 0 }] [("SilentTimeRaw", 0)]).map Prod.snd =
      ["SilentTime", "WakeLatency", "IntrLatency", "LDist", "ReqCState",
       "TotCyc", "CC0Cyc", "SMICnt", "NMICnt"]
        ++ (validCstates
            [{ name := "CC6", msr := 0x3FD, core := true, absent := false,
               cyc1 := 0, cyc2 := 0, cyc := 0 }]).map (fun e => e.name ++ "Cyc")
        ++ ([("SilentTimeRaw", (0 : Nat))]).map Prod.fst)
    ∧ ((wult_synth_fields
        [{ name := "CC6", msr := 0x3FD, core := true, absent := false,
           cyc1 := 0, cyc2 := 0, cyc := 0 }] [("SilentTimeRaw", 0)]).length =
      9 + (validCstates
        [{ name := "CC6", msr := 0x3FD, core := true, absent := false,
           cyc1 := 0, cyc2 := 0, cyc := 0 }]).length + 1)
    ∧ (∀ f ∈ wult_synth_fields
        [{ name := "CC6", msr := 0x3FD, core := true, absent := false,
           cyc1 := 0, cyc2 := 0, cyc := 0 }] [("SilentTimeRaw", 0)],
        f.1 = "u64" ∨ f = ("unsigned int", "ReqCState"))
    ∧ (∀ (s : TracerState) (env : SendEnv) (tdata : List (String × Nat)),
        env.start_err = none → env.trace_data = some (.ok tdata) →
        s.got_dp = true → s.discard_dp = false →
        s.tbi < env.ltime → env.ltime < s.tai →
        ∃ v, (wult_tracer_send_data s env).2 = .emitted v
          ∧ v.length = 9 + (validCstates s.csinfo.cstates).length + tdata.length) :=
  c8_field_layout_amended
    [{ name := "CC6", msr := 0x3FD, core := true, absent := false,
       cyc1 := 0, cyc2 := 0, cyc := 0 }] [("SilentTimeRaw", 0)]

/-- C6.  If an armer iteration encounters a non-drop failure - wrong running
CPU, arming failure, the armed event not firing before the
`ldist`-milliseconds-plus-1000 ms deadline while the engine is enabled, an
event on the wrong CPU, an armed/happened count mismatch, or an IRQ-handler
error - then the iteration takes the error path: the engine is disabled and
the thread parks until a stop is requested. -/
theorem c6_armer_failures_disable_and_park (s : EngineState) (e : ArmerEnv)
    (h : e.cur_cpu ≠ s.cpunum ∨ e.arm_err.isSome
      ∨ (e.fired = false ∧ s.enabled = true)
      ∨ e.event_cpu ≠ s.cpunum ∨ s.events_armed + 1 ≠ e.happened_now
      ∨ e.irq_err ≠ 0) :
    (armer_iteration s e).2 = .park ∧ (armer_iteration s e).1.enabled = false := by
  unfold armer_iteration wult_disable
  by_cases h1 : e.cur_cpu ≠ s.cpunum
  · rw [if_pos h1]
    exact ⟨rfl, rfl⟩
  · rw [if_neg h1]
    cases ha : e.arm_err with
    | some err => exact ⟨rfl, rfl⟩
    | none =>
        dsimp only
        by_cases h2 : ¬e.fired ∧ s.enabled
        · rw [if_pos h2]
          exact ⟨rfl, rfl⟩
        · rw [if_neg h2]
          by_cases h3 : e.event_cpu ≠ s.cpunum
          · rw [if_pos h3]
            exact ⟨rfl, rfl⟩
          · rw [if_neg h3]
            by_cases h4 : s.events_armed + 1 ≠ e.happened_now
            · rw [if_pos h4]
              exact ⟨rfl, rfl⟩
            · rw [if_neg h4]
              by_cases h5 : e.irq_err ≠ 0
              · rw [if_pos h5]
                exact ⟨rfl, rfl⟩
              · exfalso
                rcases h with h | h | h | h | h | h
                · exact h1 h
                · rw [ha] at h
                  simp at h
                · exact h2 ⟨by simp [h.1], h.2⟩
                · exact h3 h
                · exact h4 h
                · exact h5 h

/-- C6 witness: a timeout while enabled (the event did not fire in time)
parks the armer with the engine disabled. -/
theorem c6_armer_failures_disable_and_park_witness :
    (armer_iteration { cpunum := 1, enabled := true, events_armed := 0, events_happened := 0 }
      { cur_cpu := 1, arm_err := none, fired := false, event_cpu := 1,
        happened_now := 1, irq_err := 0, send_err := none }).2 = .park
    ∧ (armer_iteration { cpunum := 1, enabled := true, events_armed := 0, events_happened := 0 }
      { cur_cpu := 1, arm_err := none, fired := false, event_cpu := 1,
        happened_now := 1, irq_err := 0, send_err := none }).1.enabled = false :=
  c6_armer_failures_disable_and_park _ _ (Or.inr (Or.inr (Or.inl ⟨rfl, rfl⟩)))

/-- C10.  `wult_enable` returns 0 and changes nothing when the engine is
already enabled (in particular the counters are not reset and the armer is
not woken); when enabling the tracer fails it returns that error with the
engine still disabled and the counters untouched; and only on a successful
disabled-to-enabled transition are both counters zeroed, `enabled` set, and
the armer woken with return value 0. -/
theorem c10_wult_enable_idempotent_atomic (s : EngineState) (env : EnableEnv) :
    (s.enabled = true →
      (wult_enable s env).ret = 0 ∧ (wult_enable s env).state = s
      ∧ (wult_enable s env).woke_armer = false)
    ∧ (∀ err, s.enabled = false → env.tracer_enable_err = some err →
      (wult_enable s env).ret = err
      ∧ (wult_enable s env).state.enabled = false
      ∧ (wult_enable s env).state.events_armed = s.events_armed
      ∧ (wult_enable s env).state.events_happened = s.events_happened)
    ∧ (s.enabled = false → env.tracer_enable_err = none →
      (wult_enable s env).state.enabled = true
      ∧ (wult_enable s env).state.events_armed = 0
      ∧ (wult_enable s env).state.events_happened = 0
      ∧ (wult_enable s env).woke_armer = true
      ∧ (wult_enable s env).ret = 0) := by
  refine ⟨?_, ?_, ?_⟩
  · intro hen
    simp [wult_enable, hen]
  · intro err hen herr
    simp [wult_enable, hen, herr]
  · intro hen herr
    simp [wult_enable, hen, herr]

/-- C10 witness: enabling an already-enabled engine is a no-op returning 0. -/
theorem c10_wult_enable_idempotent_atomic_witness :
    (wult_enable { cpunum := 0, enabled := true, events_armed := 5, events_happened := 5 }
        { tracer_enable_err := none }).ret = 0
    ∧ (wult_enable { cpunum := 0, enabled := true, events_armed := 5, events_happened := 5 }
        { tracer_enable_err := none }).state =
      { cpunum := 0, enabled := true, events_armed := 5, events_happened := 5 }
    ∧ (wult_enable { cpunum := 0, enabled := true, events_armed := 5, events_happened := 5 }
        { tracer_enable_err := none }).woke_armer = false :=
  (c10_wult_enable_idempotent_atomic
    { cpunum := 0, enabled := true, events_armed := 5, events_happened := 5 }
    { tracer_enable_err := none }).1 rfl

end Wult

